import Mathlib

/-!
Shallow embedding of the pg-simple-operator reconciliation engine
(src/controllers/postgresql_controller.go, src/api/v1/postgresql_types.go).

The engine code is translated function by function.  The Kubernetes resource
store is the external collaborator of the engine; it is modelled as explicit
state (lists of records and pods keyed by namespace/name) threaded through
the store calls, with a fault schedule saying which store call fails
transiently during one invocation.
-/

namespace PgOperator

/-- PgPhase from postgresql_types.go: a string-typed phase enum. -/
abbrev PgPhase := String

/-- The constant PgUp = "up" from postgresql_types.go. -/
def PgUp : PgPhase := "up"

/-- The constant PgPending = "pending" from postgresql_types.go. -/
def PgPending : PgPhase := "pending"

/-- The constant PgFailed = "Failed" from postgresql_types.go. -/
def PgFailed : PgPhase := "Failed"

/-- Pod phase constant v1.PodPending (k8s core/v1, consumed by the switch in Reconcile). -/
def PodPending : String := "Pending"

/-- Pod phase constant v1.PodRunning (k8s core/v1, consumed by the switch in Reconcile). -/
def PodRunning : String := "Running"

/-- PostgresqlSpec from postgresql_types.go: DefaultUser and Password. -/
structure PostgresqlSpec where
  defaultUser : String
  password : String
deriving DecidableEq, Repr

/-- PostgresqlStatus from postgresql_types.go: the Phase field, plus the Active
object reference (never read or written by the controller; modelled as an
opaque string). -/
structure PostgresqlStatus where
  phase : PgPhase
  active : String
deriving DecidableEq, Repr

/-- The Postgresql object: ObjectMeta (name, namespace, deletion timestamp,
finalizers) flattened into the record, plus spec and status.  The deletion
timestamp is an Option: `none` models the zero metav1.Time, so
DeletionTimestamp.IsZero() is `isNone`. -/
structure Postgresql where
  name : String
  ns : String
  deletionTimestamp : Option Nat
  finalizers : List String
  spec : PostgresqlSpec
  status : PostgresqlStatus
deriving DecidableEq, Repr

/-- The finalizer token constant from postgresql_controller.go. -/
def postgresqlFinalizer : String := "database.db.example.com/finalizer"

/-- The image constant from postgresql_controller.go. -/
def postgresImage : String := "postgres:14.5"

/-- v1.Container, restricted to the fields createPodSpec populates:
name, image, container ports, env bindings (name, value) and volume
mounts (name, mountPath). -/
structure Container where
  name : String
  image : String
  ports : List Nat
  env : List (String × String)
  volumeMounts : List (String × String)
deriving DecidableEq, Repr

/-- v1.PodSpec, restricted to the fields createPodSpec populates: containers
and volumes.  A volume is given by its name only; the Go code leaves the
volume source empty, which Kubernetes defaults to an ephemeral emptyDir. -/
structure PodSpec where
  containers : List Container
  volumes : List String
deriving DecidableEq, Repr

/-- v1.Pod, restricted to what the engine touches: identity, spec, and the
observed status phase (a string; the zero value is ""). -/
structure Pod where
  name : String
  ns : String
  spec : PodSpec
  statusPhase : String
deriving DecidableEq, Repr

/-- getPodName from postgresql_controller.go. -/
def getPodName (pg : Postgresql) : String := pg.name

/-- createPodSpec from postgresql_controller.go, line by line: one container
named after the record, the postgres image, one container port 5432, env
POSTGRES_PASSWORD taken from the record spec and PGDATA fixed to
/data/pgdata, one volume mount of the db-disk volume at /data, and the
single db-disk volume. -/
def createPodSpec (db : Postgresql) : PodSpec :=
  let dbDisk := "postgresql-db-disk"
  let container : Container :=
    { name := getPodName db
      image := postgresImage
      ports := [5432]
      env := [("POSTGRES_PASSWORD", db.spec.password), ("PGDATA", "/data/pgdata")]
      volumeMounts := [(dbDisk, "/data")] }
  { containers := [container]
    volumes := [dbDisk] }

/-- The status-derivation switch from Reconcile (lines 93-100): PodPending
maps to PgPending, PodRunning to PgUp, everything else to PgFailed. -/
def derivePhase (podPhase : String) : PgPhase :=
  if podPhase = PodPending then PgPending
  else if podPhase = PodRunning then PgUp
  else PgFailed

/-- controllerutil.ContainsFinalizer. -/
def containsFinalizer (pg : Postgresql) (f : String) : Bool :=
  pg.finalizers.contains f

/-- controllerutil.AddFinalizer: appends the token if not already present. -/
def addFinalizer (pg : Postgresql) (f : String) : Postgresql :=
  if pg.finalizers.contains f then pg
  else { pg with finalizers := pg.finalizers ++ [f] }

/-- controllerutil.RemoveFinalizer: removes every occurrence of the token. -/
def removeFinalizer (pg : Postgresql) (f : String) : Postgresql :=
  { pg with finalizers := pg.finalizers.filter (fun x => x ≠ f) }

/-- objectDeleting from postgresql_controller.go: the deletion timestamp is
non-zero. -/
def objectDeleting (pg : Postgresql) : Bool :=
  pg.deletionTimestamp.isSome

/-- Outcome classes of a store call visible to the engine: the client
distinguishes not-found errors (client.IgnoreNotFound) from every other
(transient) error. -/
inductive StoreErr where
  | notFound
  | transient
deriving DecidableEq, Repr

/-- client.IgnoreNotFound: maps a not-found error to no error and keeps any
other error. -/
def ignoreNotFound : StoreErr → Option StoreErr
  | .notFound => none
  | .transient => some .transient

/-- The resource store (external collaborator, spec section 6): the records
and the pods it currently holds, each keyed by (namespace, name).  Pods are
kept as a plain list so that the at-most-one-child invariant is a property
of the engine, not a by-construction property of the model. -/
structure Store where
  pgs : List Postgresql
  pods : List Pod
deriving DecidableEq, Repr

/-- The record-identity predicate the store keys records by. -/
def pgAt (ns name : String) (r : Postgresql) : Bool :=
  r.ns == ns && r.name == name

/-- The pod-identity predicate the store keys pods by. -/
def podAt (ns name : String) (p : Pod) : Bool :=
  p.ns == ns && p.name == name

/-- Store lookup of a record by (namespace, name). -/
def Store.getPg (st : Store) (ns name : String) : Except StoreErr Postgresql :=
  match st.pgs.find? (pgAt ns name) with
  | some r => .ok r
  | none => .error .notFound

/-- Store lookup of a pod by (namespace, name). -/
def Store.getPod (st : Store) (ns name : String) : Except StoreErr Pod :=
  match st.pods.find? (podAt ns name) with
  | some p => .ok p
  | none => .error .notFound

/-- The store serves a newly created pod back to the caller with its observed
phase defaulted to Pending, as the Kubernetes API server does on pod
creation (pod registry PrepareForCreate); the client writes the served
object back into the caller's pod variable. -/
def servedPod (p : Pod) : Pod :=
  { p with statusPhase := PodPending }

/-- Store pod creation: appends the served pod and returns it. -/
def Store.createPod (st : Store) (p : Pod) : Store × Pod :=
  let q := servedPod p
  ({ st with pods := st.pods ++ [q] }, q)

/-- How a status-subresource write changes one stored record: the status of
the record with the writer's identity is replaced, nothing else. -/
def statusPatch (q r : Postgresql) : Postgresql :=
  if pgAt q.ns q.name r then { r with status := q.status } else r

/-- How a main-resource write changes one stored record: spec and metadata of
the record with the writer's identity are replaced, the status subresource
is kept. -/
def metaPatch (q r : Postgresql) : Postgresql :=
  if pgAt q.ns q.name r then { q with status := r.status } else r

/-- Store status-subresource update (r.Status().Update). -/
def Store.updateStatus (st : Store) (pg : Postgresql) : Store :=
  { st with pgs := st.pgs.map (statusPatch pg) }

/-- Store main-resource update (r.Update): the status subresource is not
written by a main-resource update. -/
def Store.updateMeta (st : Store) (pg : Postgresql) : Store :=
  { st with pgs := st.pgs.map (metaPatch pg) }

/-- Store pod deletion: removes the pod with the given identity. -/
def Store.deletePod (st : Store) (ns name : String) : Store :=
  { st with pods := st.pods.filter (fun p => !podAt ns name p) }

/-- A fault schedule for one engine invocation: which of the store calls the
invocation makes fails transiently (in program order: the record fetch, the
pod fetch, the pod creation, the status update, the finalizer-adding
update, the pod fetch inside deleteExternalResources, the pod deletion,
and the finalizer-removing update). -/
structure Faults where
  getPg : Bool
  getPod : Bool
  createPod : Bool
  statusUpdate : Bool
  finalizerUpdate : Bool
  getPodOnDelete : Bool
  deletePod : Bool
  removeUpdate : Bool
deriving DecidableEq, Repr

/-- The schedule on which every store call succeeds. -/
def noFaults : Faults :=
  { getPg := false, getPod := false, createPod := false, statusUpdate := false
    finalizerUpdate := false, getPodOnDelete := false, deletePod := false
    removeUpdate := false }

/-- ctrl.Result: only the RequeueAfter field is ever populated; `none`
models the zero duration of ctrl.Result{}. -/
structure CtrlResult where
  requeueAfter : Option Nat
deriving DecidableEq, Repr

/-- What one Reconcile invocation returns, together with the store it leaves
behind. -/
structure ReconcileOut where
  result : CtrlResult
  err : Option StoreErr
  store : Store
deriving DecidableEq, Repr

/-- registerFinalizer from postgresql_controller.go: on a record that is not
being deleted and does not carry the token, add the token and persist via
r.Update; otherwise do nothing.  Returns the error (the Go result value is
always ctrl.Result{}), the store, and the in-memory record (mutated through
the pointer even when the update fails). -/
def registerFinalizer (st : Store) (f : Faults) (pg : Postgresql) :
    Option StoreErr × Store × Postgresql :=
  if !objectDeleting pg then
    if !containsFinalizer pg postgresqlFinalizer then
      let pg1 := addFinalizer pg postgresqlFinalizer
      if f.finalizerUpdate then (some .transient, st, pg1)
      else (none, st.updateMeta pg1, pg1)
    else (none, st, pg)
  else (none, st, pg)

/-- The unconditional tail of deleteExternalResources: remove the finalizer
from the in-memory record and persist via r.Update. -/
def removeAndPersist (st : Store) (f : Faults) (pg : Postgresql) :
    Option StoreErr × Store × Postgresql :=
  let pg1 := removeFinalizer pg postgresqlFinalizer
  if f.removeUpdate then (some .transient, st, pg1)
  else (none, st.updateMeta pg1, pg1)

/-- deleteExternalResources from postgresql_controller.go: when the token is
present, fetch the pod; only when that fetch returns without error is the
pod deleted (a failed deletion aborts with the error).  Any fetch error —
not-found or transient — falls through, and the finalizer is removed and
persisted unconditionally afterwards. -/
def deleteExternalResources (st : Store) (f : Faults) (pg : Postgresql) :
    Option StoreErr × Store × Postgresql :=
  if containsFinalizer pg postgresqlFinalizer then
    if f.getPodOnDelete then removeAndPersist st f pg
    else
      match st.getPod pg.ns (getPodName pg) with
      | .ok _ =>
          if f.deletePod then (some .transient, st, pg)
          else removeAndPersist (st.deletePod pg.ns (getPodName pg)) f pg
      | .error _ => removeAndPersist st f pg
  else removeAndPersist st f pg

/-- The record with its status phase replaced by the phase derived from the
observed pod phase (the effect of the status switch in Reconcile on the
in-memory record). -/
def withDerivedPhase (pg : Postgresql) (pod : Pod) : Postgresql :=
  { pg with status := { pg.status with phase := derivePhase pod.statusPhase } }

/-- The pod object Reconcile assembles before requesting creation: spec from
createPodSpec, name and namespace from the record, status left at its zero
value. -/
def newPodFor (pg : Postgresql) : Pod :=
  { name := pg.name, ns := pg.ns, spec := createPodSpec pg, statusPhase := "" }

/-- The tail of Reconcile after the pod is in hand (lines 92-115): derive the
record phase from the observed pod phase, write the status subresource
(the Go code discards this error), register the finalizer (aborting on its
error), then either run the deletion protocol on a terminating record or
return the 5-second requeue. -/
def reconcileAfterPod (st : Store) (f : Faults) (pg : Postgresql) (pod : Pod) :
    ReconcileOut :=
  let pg1 := withDerivedPhase pg pod
  let st1 := if f.statusUpdate then st else st.updateStatus pg1
  match registerFinalizer st1 f pg1 with
  | (some e, st2, _) => { result := { requeueAfter := none }, err := some e, store := st2 }
  | (none, st2, pg2) =>
      if objectDeleting pg2 then
        let out := deleteExternalResources st2 f pg2
        { result := { requeueAfter := none }, err := out.1, store := out.2.1 }
      else
        { result := { requeueAfter := some 5 }, err := none, store := st2 }

/-- Reconcile from postgresql_controller.go: fetch the record (not-found is
success via IgnoreNotFound, any other fetch error is returned); fetch the
pod (a transient fetch error is returned, not-found triggers creation from
createPodSpec, and a failed creation returns a 5-second requeue with nil
error); then the common tail. -/
def reconcile (st : Store) (f : Faults) (ns name : String) : ReconcileOut :=
  if f.getPg then
    { result := { requeueAfter := none }, err := some .transient, store := st }
  else
    match st.getPg ns name with
    | .error e => { result := { requeueAfter := none }, err := ignoreNotFound e, store := st }
    | .ok pg =>
        if f.getPod then
          { result := { requeueAfter := none }, err := some .transient, store := st }
        else
          match st.getPod ns name with
          | .ok pod => reconcileAfterPod st f pg pod
          | .error _ =>
              if f.createPod then
                { result := { requeueAfter := some 5 }, err := none, store := st }
              else
                let created := st.createPod (newPodFor pg)
                reconcileAfterPod created.1 f pg created.2

end PgOperator

namespace PgOperator

/-- Claim C2: status derivation is total — PodPending maps to PgPending,
PodRunning maps to PgUp, and any other observed phase (absent children
surface as the zero value "", also not Pending/Running) maps to PgFailed;
the result is always one of the three record phases. -/
theorem derivePhase_total (s : String) :
    (derivePhase s = PgPending ∨ derivePhase s = PgUp ∨ derivePhase s = PgFailed)
    ∧ derivePhase PodPending = PgPending
    ∧ derivePhase PodRunning = PgUp
    ∧ (s ≠ PodPending → s ≠ PodRunning → derivePhase s = PgFailed) := by
  unfold derivePhase
  refine ⟨?_, by simp [PodPending, PodRunning], by simp [PodPending, PodRunning], ?_⟩
  · by_cases h1 : s = PodPending
    · left
      simp [h1]
    · by_cases h2 : s = PodRunning
      · right
        left
        simp [h1, h2, PodPending, PodRunning]
      · right
        right
        simp [h1, h2]
  · intro h1 h2
    simp [h1, h2]

/-- Witness for C2: the observed phase "Succeeded" is neither Pending nor
Running and derives to PgFailed. -/
theorem derivePhase_total_witness : derivePhase "Succeeded" = PgFailed :=
  (derivePhase_total "Succeeded").2.2.2 (by decide) (by decide)

/-- A record with the sample spec of Scenario 1 under the name db1. -/
def sampleRecord : Postgresql :=
  { name := "db1"
    ns := "default"
    deletionTimestamp := none
    finalizers := []
    spec := { defaultUser := "pguser", password := "pw1" }
    status := { phase := "", active := "" } }

/-- The same record under a different name: same spec, name db2. -/
def sampleRecordRenamed : Postgresql :=
  { sampleRecord with name := "db2" }

/-- The same record with a different default user only. -/
def sampleRecordOtherUser : Postgresql :=
  { sampleRecord with spec := { defaultUser := "admin", password := "pw1" } }

/-- Counterexample for C9: two records with equal specs but different names
produce different child specs (the container name comes from the record
name), so equal record specs alone do not yield identical output. -/
theorem createPodSpec_spec_determinism_fails :
    sampleRecord.spec = sampleRecordRenamed.spec
    ∧ createPodSpec sampleRecord ≠ createPodSpec sampleRecordRenamed := by
  constructor
  · rfl
  · intro h
    have : "db1" = "db2" := congrArg (fun ps => ((ps.containers.headD
      { name := "", image := "", ports := [], env := [], volumeMounts := [] }).name)) h
    exact absurd this (by decide)

/-- Claim C9 (amended): child spec construction is a deterministic total
function of the record — a single container with exactly one exposed port,
exactly two env bindings (the password verbatim and the fixed data
directory), one mount of the single ephemeral volume — and any two records
agreeing on name and spec yield identical output (equal specs alone do not
fix the container name, which comes from the record name). -/
theorem createPodSpec_shape_and_determinism (r : Postgresql) :
    (createPodSpec r).containers.length = 1
    ∧ (∀ c ∈ (createPodSpec r).containers,
        c.ports = [5432]
        ∧ c.env = [("POSTGRES_PASSWORD", r.spec.password), ("PGDATA", "/data/pgdata")]
        ∧ c.volumeMounts = [("postgresql-db-disk", "/data")])
    ∧ (createPodSpec r).volumes = ["postgresql-db-disk"]
    ∧ (∀ r2 : Postgresql, r.name = r2.name → r.spec = r2.spec →
        createPodSpec r = createPodSpec r2) := by
  refine ⟨rfl, ?_, rfl, ?_⟩
  · intro c hc
    simp only [createPodSpec, List.mem_singleton] at hc
    subst hc
    exact ⟨rfl, rfl, rfl⟩
  · intro r2 hn hs
    simp [createPodSpec, getPodName, hn, hs]

/-- Witness for C9 (amended): evaluated on the sample record and a copy
sharing its name and spec. -/
theorem createPodSpec_shape_and_determinism_witness :
    createPodSpec sampleRecord =
      createPodSpec { sampleRecord with status := { phase := PgUp, active := "" } } :=
  (createPodSpec_shape_and_determinism sampleRecord).2.2.2
    { sampleRecord with status := { phase := PgUp, active := "" } } rfl rfl

/-- Claim C10: the defaultUser field has no influence on the constructed
child spec — any two records agreeing on name and password (in particular,
two records differing only in defaultUser) produce identical child specs. -/
theorem createPodSpec_ignores_defaultUser (r1 r2 : Postgresql)
    (hn : r1.name = r2.name) (hpw : r1.spec.password = r2.spec.password) :
    createPodSpec r1 = createPodSpec r2 := by
  simp [createPodSpec, getPodName, hn, hpw]

/-- Witness for C10: the sample record and the record differing only in its
default user produce the same child spec. -/
theorem createPodSpec_ignores_defaultUser_witness :
    createPodSpec sampleRecord = createPodSpec sampleRecordOtherUser :=
  createPodSpec_ignores_defaultUser sampleRecord sampleRecordOtherUser rfl rfl

/-! Helper lemmas about the store operations. -/

/-- find? commutes with mapping a function that preserves the predicate. -/
theorem find?_map_pres {α : Type} (l : List α) (g : α → α) (p : α → Bool)
    (h : ∀ x, p (g x) = p x) :
    (l.map g).find? p = (l.find? p).map g := by
  rw [List.find?_map]
  have hpg : p ∘ g = p := funext h
  rw [hpg]

/-- A status patch never changes the identity a record is keyed by. -/
theorem pgAt_statusPatch (q : Postgresql) (ns name : String) (x : Postgresql) :
    pgAt ns name (statusPatch q x) = pgAt ns name x := by
  unfold statusPatch
  split <;> rfl

/-- A metadata patch never changes the identity a record is keyed by. -/
theorem pgAt_metaPatch (q : Postgresql) (ns name : String) (x : Postgresql) :
    pgAt ns name (metaPatch q x) = pgAt ns name x := by
  unfold metaPatch
  split
  · next hc =>
      simp only [pgAt, Bool.and_eq_true, beq_iff_eq] at hc
      simp [pgAt, hc.1, hc.2]
  · rfl

/-- Record lookup after a status write: the found record gets the patch. -/
theorem getPg_updateStatus (st : Store) (q : Postgresql) (ns name : String)
    (r : Postgresql) (h : st.getPg ns name = .ok r) :
    (st.updateStatus q).getPg ns name = .ok (statusPatch q r) := by
  unfold Store.getPg Store.updateStatus at *
  simp only
  rw [find?_map_pres _ _ _ (pgAt_statusPatch q ns name)]
  cases hf : st.pgs.find? (pgAt ns name) with
  | none => rw [hf] at h; cases h
  | some r0 =>
      rw [hf] at h
      cases h
      rfl

/-- Record lookup after a metadata write: the found record gets the patch. -/
theorem getPg_updateMeta (st : Store) (q : Postgresql) (ns name : String)
    (r : Postgresql) (h : st.getPg ns name = .ok r) :
    (st.updateMeta q).getPg ns name = .ok (metaPatch q r) := by
  unfold Store.getPg Store.updateMeta at *
  simp only
  rw [find?_map_pres _ _ _ (pgAt_metaPatch q ns name)]
  cases hf : st.pgs.find? (pgAt ns name) with
  | none => rw [hf] at h; cases h
  | some r0 =>
      rw [hf] at h
      cases h
      rfl

/-- Pod lookup right after creating a pod at an identity that had none. -/
theorem getPod_createPod (st : Store) (p : Pod)
    (habs : st.getPod p.ns p.name = .error .notFound) :
    (st.createPod p).1.getPod p.ns p.name = .ok (servedPod p) := by
  unfold Store.getPod Store.createPod at *
  simp only
  rw [List.find?_append]
  cases hf : st.pods.find? (podAt p.ns p.name) with
  | some q => rw [hf] at habs; cases habs
  | none =>
      have hp : podAt p.ns p.name (servedPod p) = true := by
        simp [podAt, servedPod]
      simp [hp]

/-! Settling the claims about the engine. -/

/-- Claim C5: a request naming a record that is absent from the store is a
no-op success — Reconcile returns the empty result (no requeue delay) with
no error and leaves the store untouched. -/
theorem reconcile_absent_record_noop (st : Store) (f : Faults) (ns name : String)
    (hf : f.getPg = false) (habs : st.getPg ns name = .error .notFound) :
    reconcile st f ns name =
      { result := { requeueAfter := none }, err := none, store := st } := by
  unfold reconcile
  rw [hf]
  simp only [Bool.false_eq_true, if_false]
  rw [habs]
  rfl

/-- Witness for C5: the empty store on the sample identity. -/
theorem reconcile_absent_record_noop_witness :
    reconcile { pgs := [], pods := [] } noFaults "default" "db1" =
      { result := { requeueAfter := none }, err := none,
        store := { pgs := [], pods := [] } } :=
  reconcile_absent_record_noop { pgs := [], pods := [] } noFaults "default" "db1" rfl rfl

/-- Claim C6: when the record is present, the pod is absent, and the creation
store call fails, Reconcile returns the 5-second requeue directive with a
nil error instead of surfacing the creation failure, leaving the store
untouched. -/
theorem reconcile_create_failure_requeues (st : Store) (f : Faults) (ns name : String)
    (pg : Postgresql)
    (h1 : f.getPg = false) (h2 : f.getPod = false) (h3 : f.createPod = true)
    (hmem : st.getPg ns name = .ok pg)
    (hnopod : st.getPod ns name = .error .notFound) :
    reconcile st f ns name =
      { result := { requeueAfter := some 5 }, err := none, store := st } := by
  unfold reconcile
  rw [h1]
  simp only [Bool.false_eq_true, if_false]
  rw [hmem, h2]
  simp only [Bool.false_eq_true, if_false]
  rw [hnopod]
  simp [h3]

/-- After removing a finalizer, the record no longer carries it. -/
theorem containsFinalizer_removeFinalizer (pg : Postgresql) (f : String) :
    containsFinalizer (removeFinalizer pg f) f = false := by
  unfold containsFinalizer removeFinalizer
  simp

/-- A record served by a successful lookup carries the identity it was looked
up under. -/
theorem getPg_ok_ident (st : Store) (ns name : String) (r : Postgresql)
    (h : st.getPg ns name = .ok r) : r.ns = ns ∧ r.name = name := by
  unfold Store.getPg at h
  cases hf : st.pgs.find? (pgAt ns name) with
  | none => rw [hf] at h; cases h
  | some r0 =>
      rw [hf] at h
      cases h
      have hp := List.find?_some hf
      simp only [pgAt, Bool.and_eq_true, beq_iff_eq] at hp
      exact hp

/-- Claim C8: on a terminating record carrying the token whose child is
already absent, the deletion protocol succeeds — it returns no error, makes
no pod change, and persists the record with the finalizer token removed. -/
theorem deleteExternal_absent_child (st : Store) (f : Faults) (pg r0 : Postgresql)
    (hfin : containsFinalizer pg postgresqlFinalizer = true)
    (hget : f.getPodOnDelete = false)
    (hupd : f.removeUpdate = false)
    (habs : st.getPod pg.ns (getPodName pg) = .error .notFound)
    (hmem : st.getPg pg.ns pg.name = .ok r0) :
    (deleteExternalResources st f pg).1 = none
    ∧ (deleteExternalResources st f pg).2.1.pods = st.pods
    ∧ ∃ r, (deleteExternalResources st f pg).2.1.getPg pg.ns pg.name = .ok r
         ∧ containsFinalizer r postgresqlFinalizer = false := by
  have hstep : deleteExternalResources st f pg =
      removeAndPersist st f pg := by
    unfold deleteExternalResources
    rw [hfin, hget]
    simp only [if_true, Bool.false_eq_true, if_false]
    rw [habs]
  have hout : removeAndPersist st f pg =
      (none, st.updateMeta (removeFinalizer pg postgresqlFinalizer),
        removeFinalizer pg postgresqlFinalizer) := by
    unfold removeAndPersist
    rw [hupd]
    simp
  rw [hstep, hout]
  refine ⟨rfl, rfl, ?_⟩
  refine ⟨metaPatch (removeFinalizer pg postgresqlFinalizer) r0, ?_, ?_⟩
  · exact getPg_updateMeta st (removeFinalizer pg postgresqlFinalizer) pg.ns pg.name r0 hmem
  · obtain ⟨e1, e2⟩ := getPg_ok_ident st pg.ns pg.name r0 hmem
    have hcond : pgAt (removeFinalizer pg postgresqlFinalizer).ns
        (removeFinalizer pg postgresqlFinalizer).name r0 = true := by
      simp [pgAt, removeFinalizer, e1, e2]
    unfold metaPatch
    rw [hcond]
    simp only [if_true]
    have := containsFinalizer_removeFinalizer pg postgresqlFinalizer
    unfold containsFinalizer at this ⊢
    simpa using this

/-- The sample record in its terminating state, carrying the token. -/
def termSampleRecord : Postgresql :=
  { name := "db1"
    ns := "default"
    deletionTimestamp := some 1
    finalizers := [postgresqlFinalizer]
    spec := { defaultUser := "pguser", password := "pw1" }
    status := { phase := "", active := "" } }

/-- A store holding only the terminating sample record and no pod. -/
def termStoreNoPod : Store :=
  { pgs := [termSampleRecord], pods := [] }

/-- Witness for C8: a terminating record with the token and no pod in the
store. -/
theorem deleteExternal_absent_child_witness :
    (deleteExternalResources termStoreNoPod noFaults termSampleRecord).1 = none
    ∧ (deleteExternalResources termStoreNoPod noFaults termSampleRecord).2.1.pods
        = termStoreNoPod.pods
    ∧ ∃ r, (deleteExternalResources termStoreNoPod noFaults
          termSampleRecord).2.1.getPg "default" "db1" = .ok r
         ∧ containsFinalizer r postgresqlFinalizer = false :=
  deleteExternal_absent_child termStoreNoPod noFaults termSampleRecord termSampleRecord
    rfl rfl rfl rfl rfl

/-- The running pod belonging to the terminating sample record. -/
def termPod : Pod :=
  { name := "db1"
    ns := "default"
    spec := createPodSpec termSampleRecord
    statusPhase := PodRunning }

/-- A store holding the terminating sample record and its running pod. -/
def termStoreWithPod : Store :=
  { pgs := [termSampleRecord], pods := [termPod] }

/-- The schedule on which only the pod lookup inside deleteExternalResources
fails transiently. -/
def getPodDeleteFault : Faults :=
  { noFaults with getPodOnDelete := true }

/-- The record the engine leaves in the store on that schedule: still
terminating, status derived to up, and the finalizer token gone. -/
def termStrippedRecord : Postgresql :=
  { name := "db1"
    ns := "default"
    deletionTimestamp := some 1
    finalizers := []
    spec := { defaultUser := "pguser", password := "pw1" }
    status := { phase := PgUp, active := "" } }

/-- Claim C1 fails on the code: invoking the engine on a terminating record
carrying the token while its child pod exists, with the pod lookup inside
the deletion protocol failing transiently, removes and persists the
finalizer removal (with no error reported) while the child pod is still in
the store — deleteExternalResources treats every lookup error as absence. -/
theorem finalizer_removed_while_child_present :
    (reconcile termStoreWithPod getPodDeleteFault "default" "db1").err = none
    ∧ (reconcile termStoreWithPod getPodDeleteFault "default" "db1").store.getPod
        "default" "db1" = .ok termPod
    ∧ (reconcile termStoreWithPod getPodDeleteFault "default" "db1").store.getPg
        "default" "db1" = .ok termStrippedRecord
    ∧ containsFinalizer termStrippedRecord postgresqlFinalizer = false := by
  refine ⟨rfl, rfl, rfl, rfl⟩

/-- Adding a finalizer changes no field other than the finalizer list. -/
theorem addFinalizer_fields (pg : Postgresql) (f : String) :
    (addFinalizer pg f).ns = pg.ns ∧ (addFinalizer pg f).name = pg.name
    ∧ (addFinalizer pg f).deletionTimestamp = pg.deletionTimestamp
    ∧ (addFinalizer pg f).status = pg.status := by
  unfold addFinalizer
  split <;> exact ⟨rfl, rfl, rfl, rfl⟩

/-- Adding a finalizer does not change whether the record is terminating. -/
theorem objectDeleting_addFinalizer (pg : Postgresql) (f : String) :
    objectDeleting (addFinalizer pg f) = objectDeleting pg := by
  unfold objectDeleting addFinalizer
  split <;> rfl

/-- After adding a finalizer, the record carries it. -/
theorem containsFinalizer_addFinalizer (pg : Postgresql) (f : String) :
    containsFinalizer (addFinalizer pg f) f = true := by
  unfold containsFinalizer addFinalizer
  by_cases h : f ∈ pg.finalizers
  · simp [h]
  · simp [h]

/-- On a non-terminating record found in the store (with the status and
finalizer writes succeeding), the tail of Reconcile returns the 5-second
requeue with no error, leaves the pods untouched, and the store holds a
record at the same identity whose phase is the one derived from the
observed pod phase, which carries the finalizer token, and whose deletion
timestamp is unchanged. -/
theorem reconcileAfterPod_active (st : Store) (f : Faults) (pg : Postgresql) (pod : Pod)
    (hstat : f.statusUpdate = false) (hfr : f.finalizerUpdate = false)
    (hactive : objectDeleting pg = false)
    (hmem : st.getPg pg.ns pg.name = .ok pg) :
    (reconcileAfterPod st f pg pod).result = { requeueAfter := some 5 }
    ∧ (reconcileAfterPod st f pg pod).err = none
    ∧ (reconcileAfterPod st f pg pod).store.pods = st.pods
    ∧ ∃ r, (reconcileAfterPod st f pg pod).store.getPg pg.ns pg.name = .ok r
         ∧ r.status.phase = derivePhase pod.statusPhase
         ∧ containsFinalizer r postgresqlFinalizer = true
         ∧ r.deletionTimestamp = pg.deletionTimestamp
         ∧ r.ns = pg.ns ∧ r.name = pg.name := by
  have hod1 : objectDeleting (withDerivedPhase pg pod) = false := hactive
  have hsp : statusPatch (withDerivedPhase pg pod) pg = withDerivedPhase pg pod := by
    unfold statusPatch withDerivedPhase
    simp [pgAt]
  have hmem1 : (st.updateStatus (withDerivedPhase pg pod)).getPg pg.ns pg.name =
      .ok (withDerivedPhase pg pod) := by
    rw [getPg_updateStatus st (withDerivedPhase pg pod) pg.ns pg.name pg hmem, hsp]
  cases hcf : containsFinalizer (withDerivedPhase pg pod) postgresqlFinalizer with
  | true =>
      have heq : reconcileAfterPod st f pg pod =
          { result := { requeueAfter := some 5 }, err := none,
            store := st.updateStatus (withDerivedPhase pg pod) } := by
        unfold reconcileAfterPod registerFinalizer
        simp [hstat, hod1, hcf]
      rw [heq]
      refine ⟨rfl, rfl, rfl, withDerivedPhase pg pod, hmem1, rfl, hcf, rfl, rfl, rfl⟩
  | false =>
      have heq : reconcileAfterPod st f pg pod =
          { result := { requeueAfter := some 5 }, err := none,
            store := (st.updateStatus (withDerivedPhase pg pod)).updateMeta
              (addFinalizer (withDerivedPhase pg pod) postgresqlFinalizer) } := by
        unfold reconcileAfterPod registerFinalizer
        simp [hstat, hfr, hod1, hcf, objectDeleting_addFinalizer]
      obtain ⟨ens, ename, edt, _⟩ :=
        addFinalizer_fields (withDerivedPhase pg pod) postgresqlFinalizer
      have hc : pgAt (addFinalizer (withDerivedPhase pg pod) postgresqlFinalizer).ns
          (addFinalizer (withDerivedPhase pg pod) postgresqlFinalizer).name
          (withDerivedPhase pg pod) = true := by
        rw [ens, ename]
        simp [pgAt]
      have hmp : metaPatch (addFinalizer (withDerivedPhase pg pod) postgresqlFinalizer)
          (withDerivedPhase pg pod)
          = { addFinalizer (withDerivedPhase pg pod) postgresqlFinalizer with
              status := (withDerivedPhase pg pod).status } := by
        unfold metaPatch
        rw [hc]
        simp
      rw [heq]
      refine ⟨rfl, rfl, rfl,
        metaPatch (addFinalizer (withDerivedPhase pg pod) postgresqlFinalizer)
          (withDerivedPhase pg pod), ?_, ?_, ?_, ?_, ?_, ?_⟩
      · exact getPg_updateMeta _ _ pg.ns pg.name _ hmem1
      · rw [hmp]
        rfl
      · rw [hmp]
        have := containsFinalizer_addFinalizer (withDerivedPhase pg pod) postgresqlFinalizer
        unfold containsFinalizer at this ⊢
        simpa using this
      · rw [hmp]
        exact edt
      · rw [hmp]
        exact ens
      · rw [hmp]
        exact ename

/-- Claim C3: invoking the engine on an active record with no child, with
child creation succeeding, ends the invocation with the stored record in
phase Pending (and returns the usual requeue with no error). -/
theorem reconcile_new_record_pending (st : Store) (pg : Postgresql)
    (hmem : st.getPg pg.ns pg.name = .ok pg)
    (hactive : objectDeleting pg = false)
    (hnopod : st.getPod pg.ns pg.name = .error .notFound) :
    (reconcile st noFaults pg.ns pg.name).result = { requeueAfter := some 5 }
    ∧ (reconcile st noFaults pg.ns pg.name).err = none
    ∧ ∃ r, (reconcile st noFaults pg.ns pg.name).store.getPg pg.ns pg.name = .ok r
         ∧ r.status.phase = PgPending := by
  have hstep : reconcile st noFaults pg.ns pg.name =
      reconcileAfterPod (st.createPod (newPodFor pg)).1 noFaults pg
        (servedPod (newPodFor pg)) := by
    unfold reconcile
    rw [hmem]
    simp only [noFaults, Bool.false_eq_true, if_false]
    rw [hnopod]
    rfl
  have hmem2 : (st.createPod (newPodFor pg)).1.getPg pg.ns pg.name = .ok pg := hmem
  obtain ⟨h1, h2, _, r, hr, hphase, _⟩ :=
    reconcileAfterPod_active (st.createPod (newPodFor pg)).1 noFaults pg
      (servedPod (newPodFor pg)) rfl rfl hactive hmem2
  rw [hstep]
  exact ⟨h1, h2, r, hr, by rw [hphase]; rfl⟩

/-- Witness for C3: the sample record alone in the store ends up Pending. -/
theorem reconcile_new_record_pending_witness :
    (reconcile { pgs := [sampleRecord], pods := [] } noFaults "default" "db1").result
        = { requeueAfter := some 5 }
    ∧ (reconcile { pgs := [sampleRecord], pods := [] } noFaults "default" "db1").err = none
    ∧ ∃ r, (reconcile { pgs := [sampleRecord], pods := [] } noFaults
          "default" "db1").store.getPg "default" "db1" = .ok r
         ∧ r.status.phase = PgPending :=
  reconcile_new_record_pending { pgs := [sampleRecord], pods := [] } sampleRecord
    rfl rfl rfl

/-- Witness for C6: the sample record alone in the store, with a creation
fault scheduled. -/
theorem reconcile_create_failure_requeues_witness :
    reconcile { pgs := [sampleRecord], pods := [] }
        { noFaults with createPod := true } "default" "db1" =
      { result := { requeueAfter := some 5 }, err := none,
        store := { pgs := [sampleRecord], pods := [] } } :=
  reconcile_create_failure_requeues { pgs := [sampleRecord], pods := [] }
    { noFaults with createPod := true } "default" "db1" sampleRecord
    rfl rfl rfl rfl rfl

/-- The pod lookup either serves a pod or reports notFound; it never invents
any other error by itself. -/
theorem getPod_cases (st : Store) (ns name : String) :
    (∃ p, st.getPod ns name = .ok p) ∨ st.getPod ns name = .error .notFound := by
  unfold Store.getPod
  cases st.pods.find? (podAt ns name) with
  | some p => exact .inl ⟨p, rfl⟩
  | none => exact .inr rfl

/-- Claim C7: a successful reconcile invocation on a non-terminating record
leaves the stored record carrying the controller finalizer token; and on a
terminating record the registration step changes nothing — no store write,
no record change, no error. -/
theorem finalizer_registration :
    (∀ st pg, st.getPg pg.ns pg.name = .ok pg → objectDeleting pg = false →
      ∃ r, (reconcile st noFaults pg.ns pg.name).store.getPg pg.ns pg.name = .ok r
         ∧ containsFinalizer r postgresqlFinalizer = true)
    ∧ (∀ st f pg, objectDeleting pg = true →
        registerFinalizer st f pg = (none, st, pg)) := by
  constructor
  · intro st pg hmem hactive
    rcases getPod_cases st pg.ns pg.name with ⟨p, hpod⟩ | hnopod
    · have hstep : reconcile st noFaults pg.ns pg.name =
          reconcileAfterPod st noFaults pg p := by
        unfold reconcile
        rw [hmem]
        simp only [noFaults, Bool.false_eq_true, if_false]
        rw [hpod]
      obtain ⟨_, _, _, r, hr, _, hfin, _⟩ :=
        reconcileAfterPod_active st noFaults pg p rfl rfl hactive hmem
      rw [hstep]
      exact ⟨r, hr, hfin⟩
    · have hstep : reconcile st noFaults pg.ns pg.name =
          reconcileAfterPod (st.createPod (newPodFor pg)).1 noFaults pg
            (servedPod (newPodFor pg)) := by
        unfold reconcile
        rw [hmem]
        simp only [noFaults, Bool.false_eq_true, if_false]
        rw [hnopod]
        rfl
      have hmem2 : (st.createPod (newPodFor pg)).1.getPg pg.ns pg.name = .ok pg := hmem
      obtain ⟨_, _, _, r, hr, _, hfin, _⟩ :=
        reconcileAfterPod_active (st.createPod (newPodFor pg)).1 noFaults pg
          (servedPod (newPodFor pg)) rfl rfl hactive hmem2
      rw [hstep]
      exact ⟨r, hr, hfin⟩
  · intro st f pg hdel
    unfold registerFinalizer
    rw [hdel]
    rfl

/-- Witness for C7: the sample record gains the token; the terminating sample
record is left untouched by registration. -/
theorem finalizer_registration_witness :
    (∃ r, (reconcile { pgs := [sampleRecord], pods := [] } noFaults
          "default" "db1").store.getPg "default" "db1" = .ok r
        ∧ containsFinalizer r postgresqlFinalizer = true)
    ∧ registerFinalizer termStoreNoPod noFaults termSampleRecord =
        (none, termStoreNoPod, termSampleRecord) :=
  ⟨finalizer_registration.1 { pgs := [sampleRecord], pods := [] } sampleRecord rfl rfl,
   finalizer_registration.2 termStoreNoPod noFaults termSampleRecord rfl⟩

/-- The token-removal tail never touches pods. -/
theorem removeAndPersist_pods (st : Store) (f : Faults) (pg : Postgresql) :
    (removeAndPersist st f pg).2.1.pods = st.pods := by
  unfold removeAndPersist
  by_cases h : f.removeUpdate = true
  · simp [h]
  · simp [h, Store.updateMeta]

/-- Finalizer registration never touches pods. -/
theorem registerFinalizer_pods (st : Store) (f : Faults) (pg : Postgresql) :
    (registerFinalizer st f pg).2.1.pods = st.pods := by
  unfold registerFinalizer
  by_cases h1 : objectDeleting pg = true <;>
    by_cases h2 : containsFinalizer pg postgresqlFinalizer = true <;>
      by_cases h3 : f.finalizerUpdate = true <;>
        simp [h1, h2, h3, Store.updateMeta]

/-- Finalizer registration never changes whether the in-memory record is
terminating. -/
theorem registerFinalizer_deleting (st : Store) (f : Faults) (pg : Postgresql) :
    objectDeleting (registerFinalizer st f pg).2.2 = objectDeleting pg := by
  unfold registerFinalizer
  by_cases h1 : objectDeleting pg = true <;>
    by_cases h2 : containsFinalizer pg postgresqlFinalizer = true <;>
      by_cases h3 : f.finalizerUpdate = true <;>
        simp [h1, h2, h3, objectDeleting_addFinalizer]

/-- Whatever the deletion protocol does, the pods matching any predicate
afterwards are a sub-list of those before: it may delete a pod, but never
creates or replaces one. -/
theorem deleteExternal_pods_sublist (st : Store) (f : Faults) (pg : Postgresql)
    (q : Pod → Bool) :
    List.Sublist ((deleteExternalResources st f pg).2.1.pods.filter q)
      (st.pods.filter q) := by
  unfold deleteExternalResources
  by_cases hcf : containsFinalizer pg postgresqlFinalizer = true
  · rw [if_pos hcf]
    by_cases hgd : f.getPodOnDelete = true
    · rw [if_pos hgd, removeAndPersist_pods]
    · rw [if_neg hgd]
      cases hf : st.getPod pg.ns (getPodName pg) with
      | ok p0 =>
          by_cases hdp : f.deletePod = true
          · simp only [hdp, if_true]
            exact List.Sublist.refl _
          · simp only [hdp, Bool.false_eq_true, if_false, removeAndPersist_pods]
            exact (List.filter_sublist st.pods).filter q
      | error e =>
          rw [removeAndPersist_pods]
  · rw [if_neg hcf, removeAndPersist_pods]

/-- On a non-terminating record, the tail of Reconcile leaves the pods in the
store untouched, under every fault schedule. -/
theorem reconcileAfterPod_pods_active (st : Store) (f : Faults) (pg : Postgresql)
    (pod : Pod) (hactive : objectDeleting pg = false) :
    (reconcileAfterPod st f pg pod).store.pods = st.pods := by
  have hpods1 : (if f.statusUpdate then st
      else st.updateStatus (withDerivedPhase pg pod)).pods = st.pods := by
    by_cases h : f.statusUpdate = true <;> simp [h, Store.updateStatus]
  have hpods2 := registerFinalizer_pods
    (if f.statusUpdate then st else st.updateStatus (withDerivedPhase pg pod)) f
    (withDerivedPhase pg pod)
  have hdel2 := registerFinalizer_deleting
    (if f.statusUpdate then st else st.updateStatus (withDerivedPhase pg pod)) f
    (withDerivedPhase pg pod)
  simp only [reconcileAfterPod]
  cases hreg : registerFinalizer
      (if f.statusUpdate then st else st.updateStatus (withDerivedPhase pg pod)) f
      (withDerivedPhase pg pod) with
  | mk e rest =>
      cases rest with
      | mk st2 pg2 =>
          rw [hreg] at hpods2 hdel2
          simp only at hpods2 hdel2
          rw [hpods1] at hpods2
          have hdel3 : objectDeleting pg2 = false := by
            rw [hdel2]
            exact hactive
          cases e with
          | none =>
              simp only [hdel3, Bool.false_eq_true, if_false]
              exact hpods2
          | some e0 =>
              simp only
              exact hpods2

/-- Under every fault schedule, the tail of Reconcile never adds or replaces
a pod: pods matching any predicate afterwards are a sub-list of those
before. -/
theorem reconcileAfterPod_pods_sublist (st : Store) (f : Faults) (pg : Postgresql)
    (pod : Pod) (q : Pod → Bool) :
    List.Sublist ((reconcileAfterPod st f pg pod).store.pods.filter q)
      (st.pods.filter q) := by
  have hpods1 : (if f.statusUpdate then st
      else st.updateStatus (withDerivedPhase pg pod)).pods = st.pods := by
    by_cases h : f.statusUpdate = true <;> simp [h, Store.updateStatus]
  have hpods2 := registerFinalizer_pods
    (if f.statusUpdate then st else st.updateStatus (withDerivedPhase pg pod)) f
    (withDerivedPhase pg pod)
  simp only [reconcileAfterPod]
  cases hreg : registerFinalizer
      (if f.statusUpdate then st else st.updateStatus (withDerivedPhase pg pod)) f
      (withDerivedPhase pg pod) with
  | mk e rest =>
      cases rest with
      | mk st2 pg2 =>
          rw [hreg] at hpods2
          simp only at hpods2
          rw [hpods1] at hpods2
          cases e with
          | none =>
              by_cases hdel : objectDeleting pg2 = true
              · simp only [hdel, if_true]
                have h := deleteExternal_pods_sublist st2 f pg2 q
                rw [hpods2] at h
                exact h
              · simp only [hdel, Bool.false_eq_true, if_false]
                rw [hpods2]
          | some e0 =>
              simp only
              rw [hpods2]

/-- A fault-free invocation that finds an active record and its pod leaves
the pods in the store exactly as they were. -/
theorem reconcile_pods_unchanged (st : Store) (ns name : String)
    (pg : Postgresql) (p : Pod)
    (hmem : st.getPg ns name = .ok pg)
    (hactive : objectDeleting pg = false)
    (hpod : st.getPod ns name = .ok p) :
    (reconcile st noFaults ns name).store.pods = st.pods := by
  have hstep : reconcile st noFaults ns name = reconcileAfterPod st noFaults pg p := by
    unfold reconcile
    rw [hmem]
    simp only [noFaults, Bool.false_eq_true, if_false]
    rw [hpod]
  rw [hstep]
  exact reconcileAfterPod_pods_active st noFaults pg p hactive

/-- Under any fault schedule, an invocation whose request identity already
has a pod never adds or replaces a pod at that identity. -/
theorem reconcile_pods_sublist_present (st : Store) (f : Faults) (ns name : String)
    (p : Pod) (hpod : st.getPod ns name = .ok p) :
    List.Sublist ((reconcile st f ns name).store.pods.filter (podAt ns name))
      (st.pods.filter (podAt ns name)) := by
  unfold reconcile
  by_cases hg : f.getPg = true
  · rw [if_pos hg]
  · rw [if_neg hg]
    cases hpg : st.getPg ns name with
    | error e =>
        exact List.Sublist.refl _
    | ok pg0 =>
        by_cases h2 : f.getPod = true
        · simp only [h2, if_true]
          exact List.Sublist.refl _
        · simp only [h2, Bool.false_eq_true, if_false]
          rw [hpod]
          exact reconcileAfterPod_pods_sublist st f pg0 p _

/-- How many pods the store holds at an identity. -/
def countPods (st : Store) (ns name : String) : Nat :=
  (st.pods.filter (podAt ns name)).length

/-- Claim C4: child creation is idempotent — two successive fault-free
invocations on an active record with no child leave exactly one pod at the
record identity (where there was none before); and whenever a pod is
already present at the request identity, an invocation (under any fault
schedule) neither creates another pod nor modifies the existing one: the
pods at that identity afterwards are a sub-list of those before. -/
theorem reconcile_idempotent_creation :
    (∀ st pg, st.getPg pg.ns pg.name = .ok pg → objectDeleting pg = false →
      st.getPod pg.ns pg.name = .error .notFound →
      countPods st pg.ns pg.name = 0
      ∧ countPods (reconcile (reconcile st noFaults pg.ns pg.name).store noFaults
          pg.ns pg.name).store pg.ns pg.name = 1)
    ∧ (∀ st f ns name p, st.getPod ns name = .ok p →
      List.Sublist ((reconcile st f ns name).store.pods.filter (podAt ns name))
        (st.pods.filter (podAt ns name))) := by
  constructor
  · intro st pg hmem hactive hnopod
    have hfn : st.pods.find? (podAt pg.ns pg.name) = none := by
      unfold Store.getPod at hnopod
      cases hf : st.pods.find? (podAt pg.ns pg.name) with
      | some q => rw [hf] at hnopod; cases hnopod
      | none => rfl
    have hfilter0 : st.pods.filter (podAt pg.ns pg.name) = [] :=
      List.filter_eq_nil_iff.mpr (List.find?_eq_none.mp hfn)
    have hcount0 : countPods st pg.ns pg.name = 0 := by
      unfold countPods
      rw [hfilter0]
      rfl
    have hstep : reconcile st noFaults pg.ns pg.name =
        reconcileAfterPod (st.createPod (newPodFor pg)).1 noFaults pg
          (servedPod (newPodFor pg)) := by
      unfold reconcile
      rw [hmem]
      simp only [noFaults, Bool.false_eq_true, if_false]
      rw [hnopod]
      rfl
    have hmem2 : (st.createPod (newPodFor pg)).1.getPg pg.ns pg.name = .ok pg := hmem
    obtain ⟨_, _, hpods1, r, hr, _, _, hdt, _, _⟩ :=
      reconcileAfterPod_active (st.createPod (newPodFor pg)).1 noFaults pg
        (servedPod (newPodFor pg)) rfl rfl hactive hmem2
    have hpods1a : (reconcile st noFaults pg.ns pg.name).store.pods =
        st.pods ++ [servedPod (newPodFor pg)] := by
      rw [hstep]
      exact hpods1
    have hmem3 : (reconcile st noFaults pg.ns pg.name).store.getPg pg.ns pg.name
        = .ok r := by
      rw [hstep]
      exact hr
    have hactr : objectDeleting r = false := by
      unfold objectDeleting
      rw [hdt]
      exact hactive
    have hp : podAt pg.ns pg.name (servedPod (newPodFor pg)) = true := by
      simp [podAt, servedPod, newPodFor]
    have hget1 : (reconcile st noFaults pg.ns pg.name).store.getPod pg.ns pg.name
        = .ok (servedPod (newPodFor pg)) := by
      unfold Store.getPod
      rw [hpods1a, List.find?_append, hfn]
      simp [hp]
    have h2 := reconcile_pods_unchanged (reconcile st noFaults pg.ns pg.name).store
      pg.ns pg.name r (servedPod (newPodFor pg)) hmem3 hactr hget1
    refine ⟨hcount0, ?_⟩
    unfold countPods
    rw [h2, hpods1a, List.filter_append, hfilter0]
    simp [hp]
  · intro st f ns name p hpod
    exact reconcile_pods_sublist_present st f ns name p hpod

/-- Witness for C4: both parts evaluated on the sample record — two fault-free
invocations starting from no pod, and a single invocation on the store in
which the pod already exists. -/
theorem reconcile_idempotent_creation_witness :
    (countPods { pgs := [sampleRecord], pods := [] } "default" "db1" = 0
      ∧ countPods (reconcile (reconcile { pgs := [sampleRecord], pods := [] } noFaults
          "default" "db1").store noFaults "default" "db1").store "default" "db1" = 1)
    ∧ List.Sublist
        ((reconcile { pgs := [sampleRecord], pods := [servedPod (newPodFor sampleRecord)] }
            noFaults "default" "db1").store.pods.filter (podAt "default" "db1"))
        (({ pgs := [sampleRecord],
            pods := [servedPod (newPodFor sampleRecord)] } : Store).pods.filter
          (podAt "default" "db1")) :=
  ⟨reconcile_idempotent_creation.1 { pgs := [sampleRecord], pods := [] } sampleRecord
      rfl rfl rfl,
   reconcile_idempotent_creation.2
      { pgs := [sampleRecord], pods := [servedPod (newPodFor sampleRecord)] }
      noFaults "default" "db1" (servedPod (newPodFor sampleRecord)) rfl⟩

end PgOperator
